import Mathlib

/-!
Verification of the core logic of `src/bot.py` (a Telegram relay bot for the
DeepSeek completion API).

Strings are modelled as `List Char`.  Timestamps are modelled as integers
(`datetime` values on an arbitrary fixed time scale; differences compare
against the cooldown and retention constants expressed on the same scale,
here seconds).  The rate-limiter dictionary `user_requests` is modelled as an
association list whose keys are unique, mirroring a Python `dict`.  The
network is modelled by an oracle mapping each attempt number to the outcome
that attempt would observe.
-/

/-! Section: Constants (from `bot.py`, lines 30-35) -/

def MAX_INPUT_LENGTH : Nat := 2000

def MAX_RESPONSE_LENGTH : Nat := 4096

/-- The cooldown `REQUEST_COOLDOWN = timedelta(seconds=5)`. -/
def REQUEST_COOLDOWN : Int := 5

/-- The eviction horizon `timedelta(hours=1)` used in `check_rate_limit`. -/
def RETENTION_HORIZON : Int := 3600

def MAX_API_RETRIES : Nat := 3

/-! Section: Python string primitives used by `safe_trim` and `handle_message` -/

/-- Whitespace characters removed by Python's `str.strip()` (ASCII part). -/
def isWS (c : Char) : Bool :=
  c == ' ' || c == '\t' || c == '\n' || c == '\r' || c == '\x0b' || c == '\x0c'

/-- Python `text.lstrip()`. -/
def lstrip (s : List Char) : List Char := s.dropWhile isWS

/-- Python `text.rstrip()`. -/
def rstrip (s : List Char) : List Char := (s.reverse.dropWhile isWS).reverse

/-- Python `text.strip()`. -/
def strip (s : List Char) : List Char := rstrip (lstrip s)

/-- Python slice `s[:k]` where `k` may be negative (`s[:-j]` drops the last
`j` characters, truncating at the empty string). -/
def pySlice (s : List Char) (k : Int) : List Char :=
  if 0 ≤ k then s.take k.toNat else s.take (s.length - (-k).toNat)

/-- Python's substring test `needle in hay`. -/
def isSubstr (needle : List Char) : List Char → Bool
  | [] => needle.isEmpty
  | c :: t => needle.isPrefixOf (c :: t) || isSubstr needle (t)

/-- Python `s.rsplit(sep, 1)[0]`: the part of `s` before the last occurrence of
`sep`, or all of `s` when `sep` does not occur (`sep` is nonempty here). -/
def rsplitHead (sep : List Char) : List Char → List Char
  | [] => []
  | c :: t =>
    if isSubstr sep t then c :: rsplitHead sep t
    else if sep.isPrefixOf (c :: t) then []
    else c :: rsplitHead sep t

/-- The code-fence marker `"```"` looked for by `safe_trim`. -/
def FENCE : List Char := "```".toList

/-- The paragraph-break separator `"\n\n"`. -/
def PARA : List Char := "\n\n".toList

/-- The truncation marker `"\n[...]"` appended by the first two trim tiers. -/
def NL_MARKER : List Char := "\n[...]".toList

/-- The ellipsis marker `"..."` appended by the hard-cut tier. -/
def ELLIPSIS : List Char := "...".toList

/-! Section: `safe_trim` (bot.py lines 62-73) -/

/-- The function `safe_trim(text, max_len)`:
```
text = text.strip()
if len(text) <= max_len: return text
if "```" in text[:max_len]: return text[:max_len] + "\n[...]"
if "\n\n" in text[:max_len-10]: return text[:max_len].rsplit("\n\n", 1)[0] + "\n[...]"
return text[:max_len-3] + "..."
```
The inner slice bounds `max_len-10` and `max_len-3` are Python ints and may
be negative, hence `pySlice`. -/
def safe_trim (text : List Char) (max_len : Nat) : List Char :=
  let t := strip text
  if t.length ≤ max_len then t
  else if isSubstr FENCE (t.take max_len) then t.take max_len ++ NL_MARKER
  else if isSubstr PARA (pySlice t ((max_len : Int) - 10)) then
    rsplitHead PARA (t.take max_len) ++ NL_MARKER
  else pySlice t ((max_len : Int) - 3) ++ ELLIPSIS

/-- Returns `true` when the first character of `s` is whitespace. -/
def headIsWS (s : List Char) : Bool :=
  match s.head? with
  | some c => isWS c
  | none => false

/-- Returns `true` when the last character of `s` is whitespace. -/
def lastIsWS (s : List Char) : Bool :=
  match s.getLast? with
  | some c => isWS c
  | none => false

/-! Section: `RateLimiter.check_rate_limit` (bot.py lines 86-100) -/

/-- The `user_requests` dictionary: user id ↦ timestamp of last accepted
request.  A reachable table has pairwise distinct keys (it is a `dict`). -/
abbrev UserRequests := List (Nat × Int)

/-- The dictionary comprehension evicting entries with `(now - t) >= 1 hour`:
`{uid: t for uid, t in self.user_requests.items() if (now - t) < timedelta(hours=1)}`. -/
def evictStale (now : Int) (st : UserRequests) : UserRequests :=
  st.filter fun p => decide (now - p.2 < RETENTION_HORIZON)

/-- Python `self.user_requests.get(user_id)`. -/
def getTime (st : UserRequests) (uid : Nat) : Option Int :=
  (st.find? fun p => p.1 == uid).map fun p => p.2

/-- Python `self.user_requests[user_id] = now` (a `dict` store keeps one entry per
key). -/
def setTime (st : UserRequests) (uid : Nat) (now : Int) : UserRequests :=
  (st.filter fun p => p.1 != uid) ++ [(uid, now)]

/-- The method `RateLimiter.check_rate_limit(user_id)` at current time `now`: evict
stale entries, then reject when a record newer than the cooldown exists,
otherwise record `now` and accept.  Returns `(accepted, new table)`. -/
def check_rate_limit (st : UserRequests) (now : Int) (uid : Nat) : Bool × UserRequests :=
  match getTime (evictStale now st) uid with
  | some last =>
    if now - last < REQUEST_COOLDOWN then (false, evictStale now st)
    else (true, setTime (evictStale now st) uid now)
  | none => (true, setTime (evictStale now st) uid now)

/-- Modelled from the spec: the reference limiter applying "the 5-second
cooldown rule alone" with no eviction sweep, used to state the
refinement/equivalence claim about the sweep. -/
def check_rate_limit_cooldown_only (st : UserRequests) (now : Int) (uid : Nat) :
    Bool × UserRequests :=
  match getTime st uid with
  | some last =>
    if now - last < REQUEST_COOLDOWN then (false, st)
    else (true, setTime st uid now)
  | none => (true, setTime st uid now)

/-! Section: `call_deepseek_api` (bot.py lines 135-170) -/

/-- Exceptions distinguished by `handle_message`'s `except` clauses:
`httpx.HTTPStatusError` (raised by `response.raise_for_status()`) versus any
other exception (timeouts, connection errors, malformed bodies, and the
plain `Exception` raised when retries are exhausted). -/
inductive PyExn where
  | httpStatusError (status : Nat)
  | otherError
deriving DecidableEq

/-- What one network attempt observes: a well-formed success carrying
`choices[0].message.content`, or an exception. -/
inductive AttemptOutcome where
  | ok (content : List Char)
  | exn (e : PyExn)

/-- The `for attempt in range(1, MAX_API_RETRIES + 1)` loop body: each
failing attempt falls through to the next attempt while attempts remain
(the backoff sleep has no observable effect here), and the last failing
attempt raises a plain `Exception` — note, not the original
`HTTPStatusError`.  Returns the result together with the number of attempts
made. -/
def callLoop (oracle : Nat → AttemptOutcome) : List Nat → Except PyExn (List Char) × Nat
  | [] => (Except.error PyExn.otherError, MAX_API_RETRIES)
  | attempt :: rest =>
    match oracle attempt with
    | AttemptOutcome.ok c => (Except.ok c, attempt)
    | AttemptOutcome.exn _ =>
      if attempt < MAX_API_RETRIES then callLoop oracle rest
      else (Except.error PyExn.otherError, attempt)

/-- The call `call_deepseek_api(prompt)` driven by the attempt oracle. -/
def call_deepseek_api (oracle : Nat → AttemptOutcome) : Except PyExn (List Char) × Nat :=
  callLoop oracle (List.range' 1 MAX_API_RETRIES)

/-! Section: `handle_message` (bot.py lines 172-223) -/

/-- The distinct user-facing replies `handle_message` can send. -/
inductive Reply where
  /-- The reply "Please wait 5s between requests". -/
  | rateLimited
  /-- The reply "Please send a non-empty message". -/
  | emptyInput
  /-- The reply "Max 2000 chars allowed". -/
  | tooLong
  /-- the trimmed API answer -/
  | answer (text : List Char)
  /-- the `error_map` message for an `HTTPStatusError` status -/
  | apiError (status : Nat)
  /-- The reply "Temporary error - developers notified". -/
  | temporaryError
deriving DecidableEq

/-- The `error_map` of `handle_message` (401 / 429 / 500 entries plus the
generic default). -/
def error_map (status : Nat) : List Char :=
  if status == 401 then "🔑 Invalid API key - contact admin".toList
  else if status == 429 then "🚦 Too many requests - try later".toList
  else if status == 500 then "🌐 API server error".toList
  else "API Error ".toList ++ (toString status).toList

/-- The handler `handle_message`: rate limit, then input validation (empty, too long),
then the API call; a successful reply is delivered through `safe_trim`; an
escaping `HTTPStatusError` is mapped through `error_map` and any other
exception to the temporary-error message.  The last component counts
network attempts performed (0 = no network call). -/
def handle_message (st : UserRequests) (now : Int) (uid : Nat) (text : List Char)
    (oracle : Nat → AttemptOutcome) : Reply × UserRequests × Nat :=
  if !(check_rate_limit st now uid).1 then
    (Reply.rateLimited, (check_rate_limit st now uid).2, 0)
  else if (strip text).isEmpty then
    (Reply.emptyInput, (check_rate_limit st now uid).2, 0)
  else if MAX_INPUT_LENGTH < (strip text).length then
    (Reply.tooLong, (check_rate_limit st now uid).2, 0)
  else
    match call_deepseek_api oracle with
    | (Except.ok c, n) =>
      (Reply.answer (safe_trim c MAX_RESPONSE_LENGTH), (check_rate_limit st now uid).2, n)
    | (Except.error (PyExn.httpStatusError s), n) =>
      (Reply.apiError s, (check_rate_limit st now uid).2, n)
    | (Except.error PyExn.otherError, n) =>
      (Reply.temporaryError, (check_rate_limit st now uid).2, n)

/-! Section: Concrete inputs used in witnesses and counterexamples -/

/-- An oracle whose first attempt already succeeds with the reply "hi". -/
def okHiOracle : Nat → AttemptOutcome := fun _ => AttemptOutcome.ok ("hi".toList)

/-- An oracle for which every attempt fails with HTTP 401. -/
def err401Oracle : Nat → AttemptOutcome :=
  fun _ => AttemptOutcome.exn (PyExn.httpStatusError 401)

/-- An oracle for which every attempt fails with HTTP 429. -/
def err429Oracle : Nat → AttemptOutcome :=
  fun _ => AttemptOutcome.exn (PyExn.httpStatusError 429)

/-- A 4097-character API reply starting with a code fence: long enough to
overflow the 4096 ceiling and hit the code-fence trim tier. -/
def longFencedReply : List Char := FENCE ++ List.replicate 4094 'a'

/-- An oracle answering with `longFencedReply` at once. -/
def longFencedOracle : Nat → AttemptOutcome :=
  fun _ => AttemptOutcome.ok longFencedReply

/-! Section: Helper lemmas: stripping -/

theorem dropWhile_head_false {p : Char → Bool} {l t : List Char} {c : Char}
    (h : l.dropWhile p = c :: t) : p c = false := by
  induction l with
  | nil => simp at h
  | cons a l ih =>
    by_cases hp : p a
    · rw [List.dropWhile_cons_of_pos hp] at h
      exact ih h
    · rw [List.dropWhile_cons_of_neg hp] at h
      cases h
      exact Bool.of_not_eq_true hp

theorem rstrip_decomp (l : List Char) : ∃ r, l = rstrip l ++ r := by
  refine ⟨(l.reverse.takeWhile isWS).reverse, ?_⟩
  have h := List.takeWhile_append_dropWhile isWS l.reverse
  calc l = l.reverse.reverse := (List.reverse_reverse l).symm
    _ = (l.reverse.takeWhile isWS ++ l.reverse.dropWhile isWS).reverse := by rw [h]
    _ = rstrip l ++ (l.reverse.takeWhile isWS).reverse := by
        rw [List.reverse_append]; rfl

theorem strip_head_false (s : List Char) {c : Char}
    (h : (strip s).head? = some c) : isWS c = false := by
  obtain ⟨r, hr⟩ := rstrip_decomp (lstrip s)
  cases hst : strip s with
  | nil => rw [hst] at h; simp at h
  | cons d t =>
    rw [hst] at h
    simp at h
    have h2 : s.dropWhile isWS = d :: (t ++ r) := by
      have h3 : lstrip s = (d :: t) ++ r := by
        rw [hr]
        unfold strip at hst
        rw [hst]
      simpa using h3
    rw [← h]
    exact dropWhile_head_false h2

theorem strip_getLast_false {s : List Char} {c : Char}
    (h : (strip s).getLast? = some c) : isWS c = false := by
  unfold strip rstrip at h
  rw [List.getLast?_reverse] at h
  cases hd : (lstrip s).reverse.dropWhile isWS with
  | nil => rw [hd] at h; simp at h
  | cons d t =>
    rw [hd] at h
    simp at h
    subst h
    exact dropWhile_head_false hd

theorem strip_length_le (s : List Char) : (strip s).length ≤ s.length := by
  unfold strip rstrip lstrip
  calc ((s.dropWhile isWS).reverse.dropWhile isWS).reverse.length
      = ((s.dropWhile isWS).reverse.dropWhile isWS).length := List.length_reverse _
    _ ≤ (s.dropWhile isWS).reverse.length := (List.dropWhile_sublist isWS).length_le
    _ = (s.dropWhile isWS).length := List.length_reverse _
    _ ≤ s.length := (List.dropWhile_sublist isWS).length_le

theorem strip_eq_self {s : List Char}
    (h1 : ∀ c, s.head? = some c → isWS c = false)
    (h2 : ∀ c, s.getLast? = some c → isWS c = false) : strip s = s := by
  cases s with
  | nil => rfl
  | cons a t =>
    have ha : isWS a = false := h1 a rfl
    have hl : lstrip (a :: t) = a :: t := by
      unfold lstrip
      exact List.dropWhile_cons_of_neg (by simp [ha])
    unfold strip
    rw [hl]
    unfold rstrip
    cases hrev : (a :: t).reverse with
    | nil => exact absurd (congrArg List.length hrev) (by simp)
    | cons d r =>
      have hd : isWS d = false := by
        apply h2
        rw [← List.head?_reverse, hrev]
        rfl
      rw [List.dropWhile_cons_of_neg (by simp [hd]), ← hrev, List.reverse_reverse]

/-! Section: Helper lemmas: trimming -/

theorem rsplitHead_length_le (sep s : List Char) : (rsplitHead sep s).length ≤ s.length := by
  induction s with
  | nil => simp [rsplitHead]
  | cons c t ih =>
    unfold rsplitHead
    split
    · simp only [List.length_cons]
      omega
    · split
      · simp only [List.length_nil, List.length_cons]
        omega
      · simp only [List.length_cons]
        omega

theorem rsplitHead_cons_of_not_isPrefixOf {sep : List Char} {c : Char} {t : List Char}
    (h : sep.isPrefixOf (c :: t) = false) :
    rsplitHead sep (c :: t) = c :: rsplitHead sep t := by
  conv_lhs => rw [rsplitHead]
  split
  · rfl
  · split
    · rename_i hpre
      rw [h] at hpre
      cases hpre
    · rfl

theorem pySlice_length_le (s : List Char) (k : Int) : (pySlice s k).length ≤ s.length := by
  unfold pySlice
  by_cases h : 0 ≤ k
  · simp only [h, if_true, List.length_take]
    omega
  · simp only [h, if_false, List.length_take]
    omega

theorem pySlice_of_nonneg {k : Int} (s : List Char) (h : 0 ≤ k) :
    pySlice s k = s.take k.toNat := by
  unfold pySlice
  simp [h]

theorem isSubstr_of_isPrefixOf {needle : List Char} {c : Char} {t : List Char}
    (h : needle.isPrefixOf (c :: t) = true) : isSubstr needle (c :: t) = true := by
  unfold isSubstr
  simp [h]

/-- Length bound of `safe_trim`, shared by several claims: for any ceiling of
at least 3 characters the result never exceeds the ceiling plus the
6-character `"\n[...]"` marker. -/
theorem safe_trim_length_le (text : List Char) (N : Nat) (h3 : 3 ≤ N) :
    (safe_trim text N).length ≤ N + NL_MARKER.length := by
  unfold safe_trim
  set t := strip text with ht
  by_cases h0 : t.length ≤ N
  · rw [if_pos h0]
    omega
  · rw [if_neg h0]
    by_cases h1 : isSubstr FENCE (t.take N) = true
    · rw [if_pos h1]
      simp only [List.length_append, List.length_take]
      omega
    · rw [if_neg h1]
      by_cases h2 : isSubstr PARA (pySlice t ((N : Int) - 10)) = true
      · rw [if_pos h2]
        simp only [List.length_append]
        have hr : (rsplitHead PARA (t.take N)).length ≤ (t.take N).length :=
          rsplitHead_length_le PARA (t.take N)
        simp only [List.length_take] at hr
        omega
      · rw [if_neg h2]
        simp only [List.length_append]
        have hp : pySlice t ((N : Int) - 3) = t.take ((N : Int) - 3).toNat :=
          pySlice_of_nonneg t (by omega)
        rw [hp]
        have hnat : ((N : Int) - 3).toNat = N - 3 := by omega
        rw [hnat]
        simp only [List.length_take]
        have he : ELLIPSIS.length = 3 := by decide
        omega

/-! Section: Helper lemmas: rate limiter table -/

theorem getTime_cons (k : Nat) (v : Int) (st : UserRequests) (uid : Nat) :
    getTime ((k, v) :: st) uid = if k == uid then some v else getTime st uid := by
  unfold getTime
  rw [List.find?_cons]
  by_cases h : k == uid
  · simp [h]
  · simp [h]

theorem getTime_eq_none_of_not_mem {st : UserRequests} {uid : Nat}
    (h : uid ∉ st.map Prod.fst) : getTime st uid = none := by
  unfold getTime
  rw [List.find?_eq_none.mpr]
  · rfl
  · intro p hp hbeq
    exact h (List.mem_map.mpr ⟨p, hp, by simpa using hbeq⟩)

theorem getTime_append_of_no_key {A : UserRequests} {uid : Nat} (B : UserRequests)
    (h : ∀ p ∈ A, (p.1 == uid) = false) : getTime (A ++ B) uid = getTime B uid := by
  unfold getTime
  rw [List.find?_append]
  have hA : (A.find? fun p => p.1 == uid) = none := by
    rw [List.find?_eq_none]
    intro p hp
    simp [h p hp]
  rw [hA]
  rfl

/-- With unique keys, eviction turns the user's record into `none` exactly
when it is stale and leaves it intact otherwise. -/
theorem getTime_evict (st : UserRequests) (now : Int) (uid : Nat)
    (h : (st.map Prod.fst).Nodup) :
    getTime (evictStale now st) uid =
      match getTime st uid with
      | none => none
      | some t => if now - t < RETENTION_HORIZON then some t else none := by
  induction st with
  | nil => rfl
  | cons p rest ih =>
    obtain ⟨k, v⟩ := p
    rw [List.map_cons, List.nodup_cons] at h
    obtain ⟨hk, hrest⟩ := h
    by_cases hkey : k == uid
    · have hkuid : k = uid := by simpa using hkey
      subst hkuid
      rw [getTime_cons]
      rw [if_pos hkey]
      unfold evictStale
      rw [List.filter_cons]
      by_cases hkeep : now - v < RETENTION_HORIZON
      · rw [if_pos (by simpa using hkeep)]
        rw [getTime_cons, if_pos hkey]
        simp [hkeep]
      · rw [if_neg (by simpa using hkeep)]
        have hnone : getTime (List.filter
            (fun p => decide (now - p.2 < RETENTION_HORIZON)) rest) k = none := by
          apply getTime_eq_none_of_not_mem
          intro hmem
          apply hk
          obtain ⟨q, hq, hq2⟩ := List.mem_map.mp hmem
          exact List.mem_map.mpr ⟨q, List.mem_of_mem_filter hq, hq2⟩
        rw [hnone]
        simp [hkeep]
    · rw [getTime_cons, if_neg (by simpa using hkey)]
      unfold evictStale
      rw [List.filter_cons]
      by_cases hkeep : now - v < RETENTION_HORIZON
      · rw [if_pos (by simpa using hkeep)]
        rw [getTime_cons, if_neg (by simpa using hkey)]
        exact ih hrest
      · rw [if_neg (by simpa using hkeep)]
        exact ih hrest

theorem getTime_setTime (st : UserRequests) (uid : Nat) (now : Int) :
    getTime (setTime st uid now) uid = some now := by
  unfold setTime
  rw [getTime_append_of_no_key _ (fun p hp => ?_)]
  · simp [getTime_cons]
  · have := (List.mem_filter.mp hp).2
    simpa [bne] using this

/-- After a store for `uid`, a later eviction pass sees `uid`'s record as
`now` when still fresh and as absent when stale. -/
theorem getTime_evict_setTime (st : UserRequests) (uid : Nat) (now now2 : Int) :
    getTime (evictStale now2 (setTime st uid now)) uid =
      if now2 - now < RETENTION_HORIZON then some now else none := by
  unfold setTime evictStale
  rw [List.filter_append]
  rw [getTime_append_of_no_key _ (fun p hp => ?_)]
  · rw [List.filter_cons]
    by_cases hkeep : now2 - now < RETENTION_HORIZON
    · rw [if_pos (by simpa using hkeep), if_pos hkeep]
      simp [getTime_cons]
    · rw [if_neg (by simpa using hkeep), if_neg hkeep]
      rfl
  · have h1 := (List.mem_filter.mp hp).1
    have := (List.mem_filter.mp h1).2
    simpa [bne] using this

/-- Reduction of `check_rate_limit` when the post-eviction lookup misses. -/
theorem check_rate_limit_of_none {st : UserRequests} {now : Int} {uid : Nat}
    (h : getTime (evictStale now st) uid = none) :
    check_rate_limit st now uid = (true, setTime (evictStale now st) uid now) := by
  unfold check_rate_limit
  rw [h]

/-- Reduction of `check_rate_limit` when the post-eviction lookup hits. -/
theorem check_rate_limit_of_some {st : UserRequests} {now : Int} {uid : Nat} {t : Int}
    (h : getTime (evictStale now st) uid = some t) :
    check_rate_limit st now uid =
      if now - t < REQUEST_COOLDOWN then (false, evictStale now st)
      else (true, setTime (evictStale now st) uid now) := by
  unfold check_rate_limit
  rw [h]

/-- Second call for the same user right after a store: accepted again exactly
when the elapsed time reaches the cooldown or the stored record itself has
aged past the retention horizon. -/
theorem check_rate_limit_after_setTime (base : UserRequests) (uid : Nat) (now now2 : Int) :
    (check_rate_limit (setTime base uid now) now2 uid).1 =
      decide (¬ (now2 - now < REQUEST_COOLDOWN ∧ now2 - now < RETENTION_HORIZON)) := by
  unfold check_rate_limit
  rw [getTime_evict_setTime]
  by_cases hret : now2 - now < RETENTION_HORIZON
  · rw [if_pos hret]
    by_cases hc : now2 - now < REQUEST_COOLDOWN
    · simp [hc, hret]
    · simp [hc]
  · rw [if_neg hret]
    simp [hret]

/-! Section: Claims about the rate limiter -/

/-- C5: `check_rate_limit` accepts and stores `now` iff the user has no live
record or the record's age reached the 5-second cooldown; otherwise it
rejects and leaves the user's record untouched; consequently, after an
accepted call, a second call within the cooldown is rejected and a second
call at or after the cooldown is accepted. -/
theorem c5_check_rate_limit_spec (st : UserRequests) (now : Int) (uid : Nat)
    (hnd : (st.map Prod.fst).Nodup) :
    ((check_rate_limit st now uid).1 = true ↔
      (getTime st uid = none ∨
        ∃ t, getTime st uid = some t ∧
          (RETENTION_HORIZON ≤ now - t ∨ REQUEST_COOLDOWN ≤ now - t)))
    ∧ ((check_rate_limit st now uid).1 = true →
        getTime (check_rate_limit st now uid).2 uid = some now)
    ∧ ((check_rate_limit st now uid).1 = false →
        getTime (check_rate_limit st now uid).2 uid = getTime st uid)
    ∧ (∀ now2 : Int, (check_rate_limit st now uid).1 = true →
        0 ≤ now2 - now → now2 - now < REQUEST_COOLDOWN →
        (check_rate_limit (check_rate_limit st now uid).2 now2 uid).1 = false)
    ∧ (∀ now2 : Int, (check_rate_limit st now uid).1 = true →
        REQUEST_COOLDOWN ≤ now2 - now →
        (check_rate_limit (check_rate_limit st now uid).2 now2 uid).1 = true) := by
  have he := getTime_evict st now uid hnd
  have hcool_lt : REQUEST_COOLDOWN ≤ RETENTION_HORIZON := by decide
  cases hg : getTime st uid with
  | none =>
    rw [hg] at he
    rw [check_rate_limit_of_none he]
    refine ⟨?_, ?_, ?_, ?_, ?_⟩
    · simp
    · intro _
      exact getTime_setTime _ _ _
    · intro hfalse
      simp at hfalse
    · intro now2 _ h0 hc
      rw [check_rate_limit_after_setTime]
      simp only [decide_eq_false_iff_not, not_not]
      exact ⟨hc, by omega⟩
    · intro now2 _ hc
      rw [check_rate_limit_after_setTime]
      simp only [decide_eq_true_eq]
      intro hcontra
      omega
  | some t =>
    rw [hg] at he
    have he2 : getTime (evictStale now st) uid =
        if now - t < RETENTION_HORIZON then some t else none := by
      simpa using he
    by_cases hlive : now - t < RETENTION_HORIZON
    · rw [if_pos hlive] at he2
      by_cases hc : now - t < REQUEST_COOLDOWN
      · have hres : check_rate_limit st now uid = (false, evictStale now st) := by
          rw [check_rate_limit_of_some he2, if_pos hc]
        rw [hres]
        refine ⟨?_, ?_, ?_, ?_, ?_⟩
        · constructor
          · intro hfalse
            simp at hfalse
          · intro hrhs
            exfalso
            rcases hrhs with hnone | ⟨t', ht', hd⟩
            · cases hnone
            · injection ht' with ht''
              subst ht''
              rcases hd with h1 | h1 <;> omega
        · intro htrue
          simp at htrue
        · intro _
          exact he2
        · intro now2 htrue
          simp at htrue
        · intro now2 htrue
          simp at htrue
      · have hres : check_rate_limit st now uid =
            (true, setTime (evictStale now st) uid now) := by
          rw [check_rate_limit_of_some he2, if_neg hc]
        rw [hres]
        refine ⟨?_, ?_, ?_, ?_, ?_⟩
        · constructor
          · intro _
            exact Or.inr ⟨t, rfl, Or.inr (by omega)⟩
          · intro _
            rfl
        · intro _
          exact getTime_setTime _ _ _
        · intro hfalse
          simp at hfalse
        · intro now2 _ h0 hc2
          rw [check_rate_limit_after_setTime]
          simp only [decide_eq_false_iff_not, not_not]
          exact ⟨hc2, by omega⟩
        · intro now2 _ hc2
          rw [check_rate_limit_after_setTime]
          simp only [decide_eq_true_eq]
          intro hcontra
          omega
    · rw [if_neg hlive] at he2
      have hres : check_rate_limit st now uid =
          (true, setTime (evictStale now st) uid now) := check_rate_limit_of_none he2
      rw [hres]
      refine ⟨?_, ?_, ?_, ?_, ?_⟩
      · constructor
        · intro _
          exact Or.inr ⟨t, rfl, Or.inl (by omega)⟩
        · intro _
          rfl
      · intro _
        exact getTime_setTime _ _ _
      · intro hfalse
        simp at hfalse
      · intro now2 _ h0 hc2
        rw [check_rate_limit_after_setTime]
        simp only [decide_eq_false_iff_not, not_not]
        exact ⟨hc2, by omega⟩
      · intro now2 _ hc2
        rw [check_rate_limit_after_setTime]
        simp only [decide_eq_true_eq]
        intro hcontra
        omega

/-- Reduction of the reference limiter when the lookup misses. -/
theorem check_rate_limit_cooldown_only_of_none {st : UserRequests} {now : Int} {uid : Nat}
    (h : getTime st uid = none) :
    check_rate_limit_cooldown_only st now uid = (true, setTime st uid now) := by
  unfold check_rate_limit_cooldown_only
  rw [h]

/-- Reduction of the reference limiter when the lookup hits. -/
theorem check_rate_limit_cooldown_only_of_some {st : UserRequests} {now : Int} {uid : Nat}
    {t : Int} (h : getTime st uid = some t) :
    check_rate_limit_cooldown_only st now uid =
      if now - t < REQUEST_COOLDOWN then (false, st)
      else (true, setTime st uid now) := by
  unfold check_rate_limit_cooldown_only
  rw [h]

/-- Witness for C5: from an empty table the first call at time 0 is
accepted, a second call 2 seconds later is rejected, and a second call 5
seconds later is accepted. -/
theorem c5_check_rate_limit_spec_witness :
    (check_rate_limit ([] : UserRequests) 0 1).1 = true
    ∧ (check_rate_limit (check_rate_limit [] 0 1).2 2 1).1 = false
    ∧ (check_rate_limit (check_rate_limit [] 0 1).2 5 1).1 = true := by
  have h := c5_check_rate_limit_spec [] 0 1 (by decide)
  refine ⟨?_, ?_, ?_⟩
  · exact (h.1).mpr (Or.inl rfl)
  · exact h.2.2.2.1 2 ((h.1).mpr (Or.inl rfl)) (by decide) (by decide)
  · exact h.2.2.2.2 5 ((h.1).mpr (Or.inl rfl)) (by decide)

/-- C6: on any dictionary state, the limiter with the 1-hour eviction sweep
returns the same accept/reject boolean as the reference limiter applying
the 5-second cooldown rule alone. -/
theorem c6_sweep_preserves_outcome (st : UserRequests) (now : Int) (uid : Nat)
    (hnd : (st.map Prod.fst).Nodup) :
    (check_rate_limit st now uid).1 = (check_rate_limit_cooldown_only st now uid).1 := by
  have he := getTime_evict st now uid hnd
  have hcool_lt : REQUEST_COOLDOWN ≤ RETENTION_HORIZON := by decide
  cases hg : getTime st uid with
  | none =>
    rw [hg] at he
    rw [check_rate_limit_of_none he, check_rate_limit_cooldown_only_of_none hg]
  | some t =>
    rw [hg] at he
    have he2 : getTime (evictStale now st) uid =
        if now - t < RETENTION_HORIZON then some t else none := by
      simpa using he
    rw [check_rate_limit_cooldown_only_of_some hg]
    by_cases hlive : now - t < RETENTION_HORIZON
    · rw [if_pos hlive] at he2
      rw [check_rate_limit_of_some he2]
      by_cases hc : now - t < REQUEST_COOLDOWN
      · rw [if_pos hc, if_pos hc]
      · rw [if_neg hc, if_neg hc]
    · rw [if_neg hlive] at he2
      rw [check_rate_limit_of_none he2]
      rw [if_neg (by omega : ¬ now - t < REQUEST_COOLDOWN)]

/-- Witness for C6: a table holding a fresh record for user 2 and a stale
one for user 1, probed for both users. -/
theorem c6_sweep_preserves_outcome_witness :
    (([((1 : Nat), (0 : Int)), (2, 3990)].map Prod.fst).Nodup)
    ∧ (check_rate_limit [(1, 0), (2, 3990)] 4000 1).1 =
        (check_rate_limit_cooldown_only [(1, 0), (2, 3990)] 4000 1).1
    ∧ (check_rate_limit [(1, 0), (2, 3990)] 4000 2).1 =
        (check_rate_limit_cooldown_only [(1, 0), (2, 3990)] 4000 2).1 := by
  refine ⟨by decide, ?_, ?_⟩
  · exact c6_sweep_preserves_outcome [(1, 0), (2, 3990)] 4000 1 (by decide)
  · exact c6_sweep_preserves_outcome [(1, 0), (2, 3990)] 4000 2 (by decide)

/-- C7: after any `check_rate_limit` call, every record still in the table
is younger than the 1-hour retention horizon (measured at the call's time),
whoever triggered the call. -/
theorem c7_no_stale_record_survives (st : UserRequests) (now : Int) (uid : Nat) :
    ((check_rate_limit st now uid).2).all
      (fun p => decide (now - p.2 < RETENTION_HORIZON)) = true := by
  have hall : (evictStale now st).all
      (fun p => decide (now - p.2 < RETENTION_HORIZON)) = true := by
    rw [List.all_eq_true]
    intro p hp
    exact (List.mem_filter.mp hp).2
  have hset : (setTime (evictStale now st) uid now).all
      (fun p => decide (now - p.2 < RETENTION_HORIZON)) = true := by
    rw [List.all_eq_true]
    intro p hp
    rcases List.mem_append.mp hp with hmem | hmem
    · exact (List.mem_filter.mp (List.mem_of_mem_filter hmem)).2
    · have hp2 : p = (uid, now) := by simpa using hmem
      subst hp2
      have h0 : (0 : Int) < RETENTION_HORIZON := by decide
      simp only [decide_eq_true_eq, sub_self]
      exact h0
  cases hg : getTime (evictStale now st) uid with
  | none =>
    rw [check_rate_limit_of_none hg]
    exact hset
  | some t =>
    rw [check_rate_limit_of_some hg]
    by_cases hc : now - t < REQUEST_COOLDOWN
    · rw [if_pos hc]
      exact hall
    · rw [if_neg hc]
      exact hset
/-! Section: Claims about `safe_trim` -/

/-- C9: when the input already fits the ceiling, `safe_trim` returns it
unchanged except for removal of surrounding whitespace, with no marker. -/
theorem c9_trim_identity_within_bound (text : List Char) (N : Nat)
    (h : text.length ≤ N) : safe_trim text N = strip text := by
  unfold safe_trim
  set t := strip text with ht
  have hlen : t.length ≤ N := by
    rw [ht]
    exact le_trans (strip_length_le text) h
  rw [if_pos hlen]

/-- Witness for C9 at a concrete in-bounds input. -/
theorem c9_trim_identity_within_bound_witness :
    ("  hi  ".toList).length ≤ 4096
    ∧ safe_trim ("  hi  ".toList) 4096 = strip ("  hi  ".toList) :=
  ⟨by decide, c9_trim_identity_within_bound _ _ (by decide)⟩

/-- C8 counterexample: at ceiling 2 the hard-cut tier computes the Python
slice `text[:-1]`, which keeps almost the whole input, so the result has
length 12 > 2 + 6. -/
theorem c8_bound_fails_for_tiny_ceiling :
    ¬ ((safe_trim (List.replicate 10 'a') 2).length ≤ 2 + NL_MARKER.length) := by decide

/-- C8 (amended): for every text and every ceiling N ≥ 3, `safe_trim`
returns at most N plus the 6 characters of the truncation marker. -/
theorem c8_trim_length_bound (text : List Char) (N : Nat) (h : 3 ≤ N) :
    (safe_trim text N).length ≤ N + NL_MARKER.length :=
  safe_trim_length_le text N h

/-- Witness for C8 at the default ceiling. -/
theorem c8_trim_length_bound_witness :
    3 ≤ 4096 ∧ (safe_trim (List.replicate 10 'a') 4096).length ≤ 4096 + NL_MARKER.length :=
  ⟨by decide, c8_trim_length_bound _ 4096 (by decide)⟩

/-! Section: Edge-whitespace helpers for C10 -/

theorem headIsWS_strip (s : List Char) : headIsWS (strip s) = false := by
  unfold headIsWS
  cases h : (strip s).head? with
  | none => rfl
  | some c => exact strip_head_false s h

theorem lastIsWS_strip (s : List Char) : lastIsWS (strip s) = false := by
  unfold lastIsWS
  cases h : (strip s).getLast? with
  | none => rfl
  | some c => exact strip_getLast_false h

theorem lastIsWS_append (x m : List Char) (hm : m ≠ []) :
    lastIsWS (x ++ m) = lastIsWS m := by
  unfold lastIsWS
  rw [List.getLast?_append_of_ne_nil x hm]

theorem para_isPrefixOf_false {c : Char} (l : List Char) (hcws : isWS c = false) :
    PARA.isPrefixOf (c :: l) = false := by
  have hPARA : PARA = '\n' :: '\n' :: [] := by decide
  rw [hPARA]
  have hbe : ('\n' == c) = false := by
    cases hbe2 : ('\n' == c) with
    | true =>
      have he : '\n' = c := eq_of_beq hbe2
      rw [← he] at hcws
      simp [isWS] at hcws
    | false => rfl
  show (('\n' == c) && List.isPrefixOf ['\n'] l) = false
  rw [hbe]
  rfl

/-- C10: `safe_trim` at the default ceiling never returns a string with a
leading or trailing whitespace character: the input is stripped before the
length check and every truncation tier ends in a non-whitespace marker. -/
theorem c10_trim_no_edge_whitespace (text : List Char) :
    headIsWS (safe_trim text MAX_RESPONSE_LENGTH) = false
    ∧ lastIsWS (safe_trim text MAX_RESPONSE_LENGTH) = false := by
  unfold safe_trim
  set s := strip text with hs
  by_cases h0 : s.length ≤ MAX_RESPONSE_LENGTH
  · rw [if_pos h0, hs]
    exact ⟨headIsWS_strip text, lastIsWS_strip text⟩
  · rw [if_neg h0]
    have hslen : MAX_RESPONSE_LENGTH < s.length := by omega
    cases hcons : s with
    | nil =>
      rw [hcons] at hslen
      simp [MAX_RESPONSE_LENGTH] at hslen
    | cons c t =>
      have hcws : isWS c = false := by
        apply strip_head_false text
        rw [← hs, hcons]
        rfl
      by_cases h1 : isSubstr FENCE ((c :: t).take MAX_RESPONSE_LENGTH) = true
      · rw [if_pos h1]
        constructor
        · rw [show (c :: t).take MAX_RESPONSE_LENGTH = c :: t.take 4095 from rfl]
          exact hcws
        · rw [lastIsWS_append _ NL_MARKER (by decide)]
          decide
      · rw [if_neg h1]
        by_cases h2 : isSubstr PARA (pySlice (c :: t) ((MAX_RESPONSE_LENGTH : Int) - 10)) = true
        · rw [if_pos h2]
          constructor
          · rw [show (c :: t).take MAX_RESPONSE_LENGTH = c :: t.take 4095 from rfl]
            rw [rsplitHead_cons_of_not_isPrefixOf (para_isPrefixOf_false _ hcws)]
            exact hcws
          · rw [lastIsWS_append _ NL_MARKER (by decide)]
            decide
        · rw [if_neg h2]
          constructor
          · rw [pySlice_of_nonneg (c :: t) (by decide)]
            rw [show ((MAX_RESPONSE_LENGTH : Int) - 3).toNat = 4093 from rfl]
            rw [show (c :: t).take 4093 = c :: t.take 4092 from rfl]
            exact hcws
          · rw [lastIsWS_append _ ELLIPSIS (by decide)]
            decide
/-! Section: Claims about the API client and pipeline error mapping -/

/-- C2 (code evaluated at the failing input): when every attempt fails with
HTTP 401 — or 429 — `call_deepseek_api` still performs all 3 attempts and
ends by raising the plain retries-exhausted exception, instead of the
claimed single attempt. -/
theorem c2_http_401_429_are_retried :
    call_deepseek_api err401Oracle = (Except.error PyExn.otherError, 3)
    ∧ call_deepseek_api err429Oracle = (Except.error PyExn.otherError, 3)
    ∧ (∀ oracle : Nat → AttemptOutcome, (call_deepseek_api oracle).2 ≤ MAX_API_RETRIES) := by
  refine ⟨rfl, rfl, ?_⟩
  intro oracle
  show (callLoop oracle [1, 2, 3]).2 ≤ MAX_API_RETRIES
  cases h1 : oracle 1 with
  | ok c => simp [callLoop, h1, MAX_API_RETRIES]
  | exn e =>
    cases h2 : oracle 2 with
    | ok c => simp [callLoop, h1, h2, MAX_API_RETRIES]
    | exn e2 =>
      cases h3 : oracle 3 with
      | ok c => simp [callLoop, h1, h2, h3, MAX_API_RETRIES]
      | exn e3 => simp [callLoop, h1, h2, h3, MAX_API_RETRIES]

/-- C4 (code evaluated at the failing input): when the upstream returns
HTTP 401 on every attempt, the user receives the generic temporary-error
message, not the 401 "authentication failed" entry of `error_map` — the
`HTTPStatusError` never escapes `call_deepseek_api`, which re-raises a
plain exception, so `handle_message`'s 401 branch is unreachable. -/
theorem c4_http401_delivers_temporary_error :
    handle_message [] 0 1 ("hi".toList) err401Oracle = (Reply.temporaryError, [(1, 0)], 3)
    ∧ (handle_message [] 0 1 ("hi".toList) err401Oracle).1 ≠ Reply.apiError 401 := by
  refine ⟨rfl, ?_⟩
  decide
/-- A repeated non-whitespace character is untouched by `strip`. -/
theorem strip_replicate {c : Char} (n : Nat) (hn : n ≠ 0) (hc : isWS c = false) :
    strip (List.replicate n c) = List.replicate n c := by
  apply strip_eq_self
  · intro d hd
    rw [List.head?_replicate, if_neg hn] at hd
    injection hd with h
    subst h
    exact hc
  · intro d hd
    rw [List.getLast?_replicate, if_neg hn] at hd
    injection hd with h
    subst h
    exact hc

/-- Reduction of `handle_message` when the rate limiter rejects. -/
theorem handle_message_rateLimited {st : UserRequests} {now : Int} {uid : Nat}
    (text : List Char) (oracle : Nat → AttemptOutcome)
    (h : (check_rate_limit st now uid).1 = false) :
    handle_message st now uid text oracle =
      (Reply.rateLimited, (check_rate_limit st now uid).2, 0) := by
  unfold handle_message
  rw [h]
  rfl

/-- Reduction of `handle_message` on an accepted but empty message. -/
theorem handle_message_emptyInput {st : UserRequests} {now : Int} {uid : Nat}
    {text : List Char} (oracle : Nat → AttemptOutcome)
    (h1 : (check_rate_limit st now uid).1 = true) (h2 : strip text = []) :
    handle_message st now uid text oracle =
      (Reply.emptyInput, (check_rate_limit st now uid).2, 0) := by
  unfold handle_message
  rw [h1, h2]
  rfl

/-- Reduction of `handle_message` on an accepted, non-empty, over-length
message. -/
theorem handle_message_tooLong {st : UserRequests} {now : Int} {uid : Nat}
    {text : List Char} (oracle : Nat → AttemptOutcome)
    (h1 : (check_rate_limit st now uid).1 = true)
    (hie : (strip text).isEmpty = false)
    (hlen : MAX_INPUT_LENGTH < (strip text).length) :
    handle_message st now uid text oracle =
      (Reply.tooLong, (check_rate_limit st now uid).2, 0) := by
  unfold handle_message
  rw [h1, hie, if_pos hlen]
  rfl

/-- C3 counterexample: an empty message from a rate-limited user is answered
with the rate-limit rejection, not the empty-input rejection, so the
rate-limit check runs before the empty-input check. -/
theorem c3_rate_limit_checked_before_empty :
    strip ([] : List Char) = []
    ∧ (handle_message [(1, 0)] 2 1 [] okHiOracle).1 = Reply.rateLimited
    ∧ Reply.rateLimited ≠ Reply.emptyInput := by
  refine ⟨rfl, by decide, by decide⟩

/-- C3 (amended): `handle_message` evaluates its rejections in the order
rate limit, then empty input, then over-length input, stopping at the
first applicable one, and performs no network attempt in any of the three
rejection cases. -/
theorem c3_rejection_order (st : UserRequests) (now : Int) (uid : Nat) (text : List Char)
    (oracle : Nat → AttemptOutcome) :
    ((check_rate_limit st now uid).1 = false →
      handle_message st now uid text oracle =
        (Reply.rateLimited, (check_rate_limit st now uid).2, 0))
    ∧ ((check_rate_limit st now uid).1 = true → strip text = [] →
      handle_message st now uid text oracle =
        (Reply.emptyInput, (check_rate_limit st now uid).2, 0))
    ∧ ((check_rate_limit st now uid).1 = true → strip text ≠ [] →
      MAX_INPUT_LENGTH < (strip text).length →
      handle_message st now uid text oracle =
        (Reply.tooLong, (check_rate_limit st now uid).2, 0)) := by
  refine ⟨?_, ?_, ?_⟩
  · intro hrl
    exact handle_message_rateLimited text oracle hrl
  · intro hrl hempty
    exact handle_message_emptyInput oracle hrl hempty
  · intro hrl hne hlen
    have hie : (strip text).isEmpty = false := by
      cases hie2 : (strip text).isEmpty
      · rfl
      · exact absurd (List.isEmpty_iff.mp hie2) hne
    exact handle_message_tooLong oracle hrl hie hlen

/-- Witness for C3: each rejection tier observed on a concrete run, with no
network attempt made. -/
theorem c3_rejection_order_witness :
    handle_message [(1, 0)] 2 1 ("hi".toList) okHiOracle = (Reply.rateLimited, [(1, 0)], 0)
    ∧ handle_message [] 0 1 ("  ".toList) okHiOracle = (Reply.emptyInput, [(1, 0)], 0)
    ∧ handle_message [] 0 1 (List.replicate 2001 'a') okHiOracle =
        (Reply.tooLong, [(1, 0)], 0) := by
  refine ⟨?_, ?_, ?_⟩
  · have h := (c3_rejection_order [(1, 0)] 2 1 ("hi".toList) okHiOracle).1 (by decide)
    rw [h]
    decide
  · have h := (c3_rejection_order [] 0 1 ("  ".toList) okHiOracle).2.1 (by decide) (by decide)
    rw [h]
    decide
  · have hstrip : strip (List.replicate 2001 'a') = List.replicate 2001 'a' :=
      strip_replicate 2001 (by decide) (by decide)
    have h := (c3_rejection_order [] 0 1 (List.replicate 2001 'a') okHiOracle).2.2
      (by decide) ?_ ?_
    · rw [h]
      decide
    · intro heq
      rw [hstrip] at heq
      have hlen := congrArg List.length heq
      rw [List.length_replicate] at hlen
      simp at hlen
    · rw [hstrip, List.length_replicate]
      decide
/-! Section: C1: length of the delivered answer -/

theorem replicate_a_ne_nil (n : Nat) (h : n ≠ 0) : List.replicate n 'a' ≠ [] := by
  intro he
  have hl := congrArg List.length he
  rw [List.length_replicate] at hl
  simp at hl
  exact h hl

theorem longFencedReply_strip : strip longFencedReply = longFencedReply := by
  apply strip_eq_self
  · intro c hc
    unfold longFencedReply at hc
    rw [List.head?_append_of_ne_nil _ (by decide : FENCE ≠ [])] at hc
    have hm : FENCE.head?.map isWS = some false := by decide
    rw [hc] at hm
    simpa using hm
  · intro c hc
    unfold longFencedReply at hc
    rw [List.getLast?_append_of_ne_nil FENCE (replicate_a_ne_nil 4094 (by decide))] at hc
    rw [List.getLast?_replicate, if_neg (by decide : (4094 : Nat) ≠ 0)] at hc
    injection hc with h
    subst h
    decide

theorem longFencedReply_length : longFencedReply.length = 4097 := by
  unfold longFencedReply
  rw [List.length_append, List.length_replicate]
  decide

theorem isSubstr_of_isPrefixOf_ne_nil {needle hay : List Char} (h : needle.isPrefixOf hay = true)
    (hne : hay ≠ []) : isSubstr needle hay = true := by
  cases hay with
  | nil => cases hne rfl
  | cons c t => exact isSubstr_of_isPrefixOf h

theorem isPrefixOf_append_self (l r : List Char) : l.isPrefixOf (l ++ r) = true := by
  induction l with
  | nil => simp [List.isPrefixOf]
  | cons c t ih =>
    rw [List.cons_append]
    show ((c == c) && t.isPrefixOf (t ++ r)) = true
    rw [beq_self_eq_true, ih]
    rfl

theorem fence_in_take : isSubstr FENCE (longFencedReply.take 4096) = true := by
  have hp : FENCE.isPrefixOf (longFencedReply.take 4096) = true := by
    unfold longFencedReply
    rw [List.take_append_eq_append_take]
    rw [List.take_of_length_le (by decide : FENCE.length ≤ 4096)]
    exact isPrefixOf_append_self FENCE _
  apply isSubstr_of_isPrefixOf_ne_nil hp
  intro he
  have hl := congrArg List.length he
  rw [List.length_take, longFencedReply_length] at hl
  simp at hl

theorem safe_trim_longFencedReply :
    safe_trim longFencedReply MAX_RESPONSE_LENGTH =
      longFencedReply.take 4096 ++ NL_MARKER := by
  unfold safe_trim
  rw [show MAX_RESPONSE_LENGTH = 4096 from rfl]
  rw [longFencedReply_strip]
  rw [if_neg (by rw [longFencedReply_length]; decide)]
  rw [if_pos fence_in_take]

/-- C1 counterexample: a well-formed 4097-character API reply opening with a
code fence is delivered as an answer of length 4102, exceeding the 4096
ceiling — the code-fence tier appends its marker after cutting at the full
ceiling. -/
theorem c1_reply_can_exceed_ceiling :
    (handle_message [] 0 1 ("hi".toList) longFencedOracle).1 =
      Reply.answer (longFencedReply.take 4096 ++ NL_MARKER)
    ∧ 4096 < (longFencedReply.take 4096 ++ NL_MARKER).length := by
  constructor
  · have hred : (handle_message [] 0 1 ("hi".toList) longFencedOracle).1 =
        Reply.answer (safe_trim longFencedReply MAX_RESPONSE_LENGTH) := rfl
    rw [hred, safe_trim_longFencedReply]
  · rw [List.length_append, List.length_take, longFencedReply_length]
    decide

/-- C1 (amended): every reply that `handle_message` delivers as an answer
has length at most the 4096 ceiling plus the 6-character truncation marker,
i.e. at most 4102 characters. -/
theorem c1_answer_length_bound (st : UserRequests) (now : Int) (uid : Nat)
    (text : List Char) (oracle : Nat → AttemptOutcome) (s : List Char)
    (q : UserRequests) (n : Nat)
    (h : handle_message st now uid text oracle = (Reply.answer s, q, n)) :
    s.length ≤ MAX_RESPONSE_LENGTH + NL_MARKER.length := by
  unfold handle_message at h
  split at h
  · simp at h
  · split at h
    · simp at h
    · split at h
      · simp at h
      · split at h
        · rename_i c m heq
          simp only [Prod.mk.injEq] at h
          obtain ⟨hans, -, -⟩ := h
          injection hans with hs
          rw [← hs]
          exact safe_trim_length_le c MAX_RESPONSE_LENGTH (by decide)
        · simp at h
        · simp at h

/-- Witness for C1 on a concrete successful run. -/
theorem c1_answer_length_bound_witness :
    handle_message [] 0 1 ("hi".toList) okHiOracle = (Reply.answer ("hi".toList), [(1, 0)], 1)
    ∧ ("hi".toList).length ≤ MAX_RESPONSE_LENGTH + NL_MARKER.length := by
  have hh : handle_message [] 0 1 ("hi".toList) okHiOracle =
      (Reply.answer ("hi".toList), [(1, 0)], 1) := by decide
  exact ⟨hh, c1_answer_length_bound [] 0 1 _ okHiOracle _ _ _ hh⟩
